/-
  Verification of the objmapper daemon core against its specification.

  Shallow embedding of the C sources:
    src/lib/index/index.c        (index entries, global and per-backend indexes)
    src/lib/backend/backend.c    (object lifecycle, migration, placement rules)
    src/lib/protocol/protocol.c  (V2 handshake, segmented responses, OOO client)
    src/lib/backend/metadata_schema.c (payload descriptor validation)

  Machine integers are modelled as Nat; C functions returning `int` status
  codes are modelled returning `Int` (0 success, -1 failure).  Kernel
  interactions (open/close/recvmsg) are modelled by explicit environment
  parameters; the filesystem is an association list from path to byte list.
-/
import Mathlib

set_option maxHeartbeats 1000000

namespace Objmapper

/- ============================================================
   Index entries and per-backend / global index insertion
   (src/lib/index/index.c).

   The hash table with 2^k bucket chains is modelled by the list of all
   entries: two entries with the same URI always hash to the same bucket,
   so duplicate detection and per-URI membership counting over the bucket
   chain coincide with the same operations over the full entry list.
   Insertion at the head of the bucket chain is modelled by consing.
   ============================================================ -/

structure IndexEntry where
  uri : String
  backendId : Nat
  backendPath : String
  flags : Nat
  sizeBytes : Nat
  deriving DecidableEq, Repr

/-- Model of backend_index_insert (index.c:545).  The function takes the
    write lock, acquires an entry reference, splices the entry at the head
    of its bucket chain and returns 0.  There is no duplicate check. -/
def backend_index_insert (idx : List IndexEntry) (entry : IndexEntry) :
    Int × List IndexEntry :=
  (0, entry :: idx)

/-- Model of global_index_insert (index.c:364).  Under the write lock the
    bucket chain is walked for an entry with the same URI; on a duplicate
    the function returns -1 without modifying the index, otherwise the
    entry is spliced at the head of the chain. -/
def global_index_insert (idx : List IndexEntry) (entry : IndexEntry) :
    Int × List IndexEntry :=
  if idx.any (fun e => e.uri == entry.uri) then
    (-1, idx)
  else
    (0, entry :: idx)

/- ============================================================
   index_entry_open_fd (index.c:114).

   The open(2) environment records which mode each call would use and
   whether it succeeds.  The CAS race with a concurrent opener is
   modelled by `casView`, the value another thread may have stored in
   entry->fd between the initial load and the compare-and-swap.
   ============================================================ -/

inductive OpenMode where
  | rdonly
  | rdwr
  deriving DecidableEq, Repr

/-- Result of index_entry_open_fd: return value, the entry's cached fd
    afterwards, the list of open(2) calls issued (by mode), and the list
    of descriptors closed by the losing side of the CAS race. -/
structure OpenFdResult where
  ret : Int
  cachedFd : Option Nat
  opens : List OpenMode
  closed : List Nat
  deriving DecidableEq, Repr

/-- Model of index_entry_open_fd (index.c:114).  If the cached fd is
    already set the call returns 0 immediately.  Otherwise the backend
    path is opened with O_RDONLY; on failure -1 is returned.  The new fd
    is compare-and-swapped into the entry: if another caller stored a
    descriptor first (casView), the local fd is closed and the call still
    returns 0. -/
def index_entry_open_fd (openFile : OpenMode → Option Nat)
    (casView : Option Nat) (cachedFd : Option Nat) : OpenFdResult :=
  match cachedFd with
  | some fd => ⟨0, some fd, [], []⟩
  | none =>
    match openFile OpenMode.rdonly with
    | none => ⟨-1, none, [OpenMode.rdonly], []⟩
    | some fd =>
      match casView with
      | none => ⟨0, some fd, [OpenMode.rdonly], []⟩
      | some g => ⟨0, some g, [OpenMode.rdonly], [fd]⟩

/-- The open sequence the claim describes for index_entry_open_fd: try
    O_RDWR first and fall back to O_RDONLY only when read-write is
    rejected. -/
def claimedOpenSequence (openFile : OpenMode → Option Nat) : List OpenMode :=
  match openFile OpenMode.rdwr with
  | some _ => [OpenMode.rdwr]
  | none => [OpenMode.rdwr, OpenMode.rdonly]

/- ============================================================
   V2 server handshake (protocol.c:723).
   ============================================================ -/

/-- Big-endian byte pair written by htons for a uint16 value. -/
def htons16 (v : Nat) : List Nat := [v / 256 % 256, v % 256]

/-- Value read back by ntohs from a big-endian byte pair. -/
def ntohs16 (hi lo : Nat) : Nat := hi * 256 + lo

structure ObjmHello where
  capabilities : Nat
  maxPipeline : Nat
  backendParallelism : Nat
  deriving DecidableEq, Repr

structure ObjmParams where
  version : Nat
  capabilities : Nat
  maxPipeline : Nat
  backendParallelism : Nat
  deriving DecidableEq, Repr

/-- The bytes of the magic string OBJM. -/
def objmMagicBytes : List Nat := [79, 66, 74, 77]

/-- Model of the V2 branch of objm_server_handshake (protocol.c:736-774):
    given the server's hello parameters and the capability and pipeline
    fields decoded from the client HELLO, negotiate the connection
    parameters and build the 10-byte HELLO_ACK message. -/
def objm_server_handshake_v2 (serverHello : ObjmHello)
    (clientCaps clientPipeline : Nat) : ObjmParams × List Nat :=
  let caps := clientCaps &&& serverHello.capabilities
  let pipe :=
    if clientPipeline < serverHello.maxPipeline then clientPipeline
    else serverHello.maxPipeline
  let params : ObjmParams := ⟨2, caps, pipe, serverHello.backendParallelism⟩
  let ack := objmMagicBytes ++ [2] ++ htons16 caps ++ htons16 pipe ++
    [serverHello.backendParallelism]
  (params, ack)

/- ============================================================
   V2 segmented response reception (protocol.c:159, recv_segmented_payload).

   Socket reads and SCM_RIGHTS receipt are abstracted as always
   delivering data; the model captures exactly the validation performed
   on the decoded segment table.
   ============================================================ -/

structure Seg where
  type : Nat
  flags : Nat
  copyLength : Nat
  logicalLength : Nat
  storageOffset : Nat
  storageLength : Nat
  deriving DecidableEq, Repr

def OBJM_SEG_TYPE_INLINE : Nat := 0
def OBJM_SEG_TYPE_FD : Nat := 1
def OBJM_SEG_TYPE_SPLICE : Nat := 2
def OBJM_SEG_FLAG_FIN : Nat := 1
def OBJM_SEG_FLAG_REUSE_FD : Nat := 2
def OBJM_MAX_SEGMENTS : Nat := 64

/-- Per-segment check in the first loop of recv_segmented_payload
    (protocol.c:207-232): INLINE requires copy_length == logical_length;
    FD and SPLICE require copy_length == 0 and
    storage_length >= logical_length; any other type byte is rejected. -/
def segTypeCheck (s : Seg) : Bool :=
  if s.type = OBJM_SEG_TYPE_INLINE then
    s.copyLength == s.logicalLength
  else if s.type = OBJM_SEG_TYPE_FD || s.type = OBJM_SEG_TYPE_SPLICE then
    s.copyLength == 0 && decide (s.logicalLength ≤ s.storageLength)
  else
    false

/-- Whether a segment participates in the descriptor-receiving loop. -/
def isFdSeg (s : Seg) : Bool :=
  s.type == OBJM_SEG_TYPE_FD || s.type == OBJM_SEG_TYPE_SPLICE

/-- Whether a segment carries the REUSE_FD flag. -/
def hasReuseFlag (s : Seg) : Bool :=
  s.flags &&& OBJM_SEG_FLAG_REUSE_FD != 0

/-- Whether a segment carries the FIN flag. -/
def hasFinFlag (s : Seg) : Bool :=
  s.flags &&& OBJM_SEG_FLAG_FIN != 0

/-- The descriptor-receiving loop of recv_segmented_payload
    (protocol.c:259-285).  last_fd tracks whether a prior FD or SPLICE
    segment without REUSE_FD has supplied a descriptor; a REUSE_FD
    segment fails when none has; receiving a fresh descriptor is
    abstracted as succeeding.  Segments of other types are skipped. -/
def fdRecvLoop : List Seg → Bool → Bool
  | [], _ => true
  | s :: rest, hasFd =>
    if isFdSeg s then
      if hasReuseFlag s then
        hasFd && fdRecvLoop rest hasFd
      else
        fdRecvLoop rest true
    else
      fdRecvLoop rest hasFd

/-- Model of recv_segmented_payload (protocol.c:159-300) with socket I/O
    abstracted: a decoded segment table is accepted exactly when the
    count is in range, every segment passes its type check, the
    descriptor loop finds a prior supplier for every REUSE_FD segment of
    FD or SPLICE type, and the final segment carries FIN. -/
def recv_segmented_payload (segs : List Seg) : Bool :=
  decide (1 ≤ segs.length) && decide (segs.length ≤ OBJM_MAX_SEGMENTS) &&
  segs.all segTypeCheck &&
  fdRecvLoop segs false &&
  (match segs.getLast? with
   | some s => hasFinFlag s
   | none => false)

/- ============================================================
   Payload descriptor validation
   (src/lib/backend/metadata_schema.c and include/objmapper/metadata.h).
   ============================================================ -/

def OBJM_PAYLOAD_DESCRIPTOR_VERSION : Nat := 1
def OBJM_MAX_VARIANTS : Nat := 8
def OBJM_ENCODING_IDENTITY : Nat := 0
def OBJM_ENCODING_GZIP : Nat := 1
def OBJM_ENCODING_BROTLI : Nat := 2
def OBJM_ENCODING_ZSTD : Nat := 3
def OBJM_ENCODING_CUSTOM : Nat := 255
def OBJM_CAP_IDENTITY : Nat := 1
def OBJM_CAP_GZIP : Nat := 2
def OBJM_CAP_RANGE_READY : Nat := 8

structure VariantDescriptor where
  variantId : List Nat
  capabilities : Nat
  encoding : Nat
  logicalLength : Nat
  storageLength : Nat
  rangeGranularity : Nat
  isPrimary : Nat
  deriving DecidableEq, Repr

structure PayloadDescriptor where
  version : Nat
  variantCount : Nat
  manifestFlags : Nat
  variants : List VariantDescriptor
  deriving DecidableEq, Repr

/-- Model of validate_variant (metadata_schema.c:38): the checks applied
    to one active variant, in source order (primary counting is done by
    the caller model). -/
def validate_variant (v : VariantDescriptor) : Bool :=
  !(v.variantId.headD 0 == 0) &&
  !(v.logicalLength == 0) &&
  !(v.storageLength == 0) &&
  !(v.encoding == OBJM_ENCODING_IDENTITY &&
      decide (v.storageLength < v.logicalLength)) &&
  (v.encoding == OBJM_ENCODING_IDENTITY ||
   v.encoding == OBJM_ENCODING_GZIP ||
   v.encoding == OBJM_ENCODING_BROTLI ||
   v.encoding == OBJM_ENCODING_ZSTD ||
   v.encoding == OBJM_ENCODING_CUSTOM) &&
  !(v.capabilities &&& OBJM_CAP_IDENTITY != 0 &&
      !(v.encoding == OBJM_ENCODING_IDENTITY)) &&
  !(v.capabilities &&& OBJM_CAP_GZIP != 0 &&
      !(v.encoding == OBJM_ENCODING_GZIP)) &&
  !(v.capabilities &&& OBJM_CAP_RANGE_READY != 0 &&
      v.rangeGranularity == 0)

/-- The active variants of a descriptor: the first variant_count slots of
    the variant array (metadata_schema.c:138). -/
def activeVariants (d : PayloadDescriptor) : List VariantDescriptor :=
  d.variants.take d.variantCount

/-- Model of objm_payload_descriptor_validate (metadata_schema.c:107):
    version must equal the schema constant, the variant count must be in
    1..OBJM_MAX_VARIANTS, every active variant must pass
    validate_variant, and exactly one active variant must have a nonzero
    is_primary byte. -/
def objm_payload_descriptor_validate (d : PayloadDescriptor) : Bool :=
  d.version == OBJM_PAYLOAD_DESCRIPTOR_VERSION &&
  !(d.variantCount == 0) &&
  decide (d.variantCount ≤ OBJM_MAX_VARIANTS) &&
  (activeVariants d).all validate_variant &&
  (activeVariants d).countP (fun v => v.isPrimary != 0) == 1

/-- Model of backend_set_payload_metadata (backend.c:576) restricted to
    the observable used here: the payload store maps URIs to their
    descriptor.  The descriptor is validated first; on validation failure
    the function returns -1 without touching the store; otherwise the
    looked-up URI receives the descriptor (a missing URI also fails). -/
def backend_set_payload_metadata (store : List (String × PayloadDescriptor))
    (uri : String) (p : PayloadDescriptor) :
    Int × List (String × PayloadDescriptor) :=
  if !(objm_payload_descriptor_validate p) then
    (-1, store)
  else if store.any (fun x => x.1 == uri) then
    (0, store.map (fun x => if x.1 == uri then (x.1, p) else x))
  else
    (-1, store)

/- ============================================================
   Global index lookup (index.c:314, global_index_lookup) and
   backend_get_object (backend.c:412).

   The kernel open(2) surface is an environment mapping a path and mode
   to an optional descriptor.  The lookup tries O_RDWR and falls back to
   O_RDONLY (index.c:333-337).  Entries carry the counters the claims
   mention; the statistics counters of the index object itself are
   omitted.
   ============================================================ -/

structure GEntry where
  uri : String
  backendPath : String
  backendId : Nat
  entryRefcount : Nat
  fdRefcount : Nat
  accessCount : Nat
  lastAccess : Nat
  deriving DecidableEq, Repr

/-- The descriptor obtained for an entry by global_index_lookup: open
    the backend path O_RDWR and retry O_RDONLY when that fails. -/
def lookupOpen (openFile : String → OpenMode → Option Nat)
    (path : String) : Option Nat :=
  match openFile path OpenMode.rdwr with
  | some fd => some fd
  | none => openFile path OpenMode.rdonly

/-- Model of index_entry_record_access (index.c:158). -/
def record_access (now : Nat) (e : GEntry) : GEntry :=
  { e with accessCount := e.accessCount + 1, lastAccess := now }

/-- Model of global_index_lookup (index.c:314): walk the chain for the
    URI; on a hit take an entry reference, open the backend path (RDWR,
    then RDONLY), record the access, and increment fd_refcount only when
    a descriptor was obtained.  The call succeeds whether or not the open
    succeeded; on a miss it fails.  Returns the handle's fd and the
    updated entry list. -/
def global_index_lookup (openFile : String → OpenMode → Option Nat)
    (now : Nat) (idx : List GEntry) (uri : String) :
    Option (Option Nat × List GEntry) :=
  match idx with
  | [] => none
  | e :: rest =>
    if e.uri == uri then
      some (lookupOpen openFile e.backendPath,
        record_access now
          { e with
            entryRefcount := e.entryRefcount + 1,
            fdRefcount := e.fdRefcount +
              (if (lookupOpen openFile e.backendPath).isSome then 1
               else 0) }
          :: rest)
    else
      (global_index_lookup openFile now rest uri).map
        (fun r => (r.1, e :: r.2))

/-- Apply record_access to the entry of a URI (used by backend_get_object,
    which records the access a second time through the returned handle). -/
def recordAccessAt (now : Nat) (idx : List GEntry) (uri : String) :
    List GEntry :=
  idx.map (fun e => if e.uri == uri then record_access now e else e)

/-- Model of backend_get_object (backend.c:412): a global index lookup
    followed by a second record_access on the returned entry (the
    per-backend read counter is omitted).  Success is exactly the
    success of the lookup. -/
def backend_get_object (openFile : String → OpenMode → Option Nat)
    (now : Nat) (idx : List GEntry) (uri : String) :
    Option (Option Nat × List GEntry) :=
  (global_index_lookup openFile now idx uri).map
    (fun r => (r.1, recordAccessAt now r.2 uri))

/- ============================================================
   Backend manager state machine: create and migrate
   (backend.c:314 backend_create_object, backend.c:678
   backend_migrate_object).

   The filesystem is an association list from path to content.  Mutex
   and refcount operations, statistics counters and the per-backend
   index rewiring are omitted; entry location, flags and file contents
   are modelled exactly.
   ============================================================ -/

def BACKEND_FLAG_EPHEMERAL_ONLY : Nat := 1
def BACKEND_FLAG_PERSISTENT : Nat := 2
def BACKEND_FLAG_ENABLED : Nat := 4
def BACKEND_FLAG_MIGRATION_SRC : Nat := 16
def BACKEND_FLAG_MIGRATION_DST : Nat := 32
def INDEX_FLAG_EPHEMERAL : Nat := 1
def INDEX_FLAG_PERSISTENT : Nat := 2

structure Backend where
  id : Nat
  mountPath : String
  flags : Nat
  deriving DecidableEq, Repr

abbrev Fs := List (String × List Nat)

def fsLookup (fs : Fs) (p : String) : Option (List Nat) :=
  (fs.find? (fun x => x.1 == p)).map (fun x => x.2)

def fsWrite (fs : Fs) (p : String) (content : List Nat) : Fs :=
  (p, content) :: fs.filter (fun x => x.1 != p)

def fsUnlink (fs : Fs) (p : String) : Fs :=
  fs.filter (fun x => x.1 != p)

structure MgrState where
  backends : List Backend
  globalIndex : List IndexEntry
  files : Fs
  defaultBackendId : Option Nat
  ephemeralBackendId : Option Nat
  deriving DecidableEq, Repr

/-- Model of backend_manager_get_backend (backend.c:251). -/
def getBackend (st : MgrState) (id : Nat) : Option Backend :=
  st.backends.find? (fun b => b.id == id)

structure CreateReq where
  uri : String
  backendId : Option Nat
  ephemeral : Bool
  flags : Nat
  deriving DecidableEq, Repr

/-- The backend id backend_create_object resolves for a request
    (backend.c:320-324): the explicit hint when one is given, otherwise
    the ephemeral or default designation by the ephemeral flag. -/
def resolveBackendId (st : MgrState) (req : CreateReq) : Option Nat :=
  match req.backendId with
  | some id => some id
  | none =>
    if req.ephemeral then st.ephemeralBackendId else st.defaultBackendId

/-- The body of backend_create_object once the target backend id is
    resolved (backend.c:327-409): reject a missing or disabled backend;
    reject an ephemeral request on a backend without the EPHEMERAL_ONLY
    flag (the only placement check performed); create and truncate the
    file under the backend mount; build the entry with the ephemeral or
    persistent flag added to the request flags; insert into the global
    index, undoing the file on a duplicate URI. -/
def backend_create_object_at (st : MgrState) (req : CreateReq)
    (backendId : Nat) : Int × MgrState :=
  match getBackend st backendId with
  | none => (-1, st)
  | some backend =>
    if backend.flags &&& BACKEND_FLAG_ENABLED == 0 then (-1, st)
    else if req.ephemeral &&
        backend.flags &&& BACKEND_FLAG_EPHEMERAL_ONLY == 0 then (-1, st)
    else
      let fsPath := backend.mountPath ++ req.uri
      let fs1 := fsWrite st.files fsPath []
      let entry : IndexEntry :=
        { uri := req.uri, backendId := backendId, backendPath := fsPath,
          flags := req.flags |||
            (if req.ephemeral then INDEX_FLAG_EPHEMERAL
             else INDEX_FLAG_PERSISTENT),
          sizeBytes := 0 }
      match global_index_insert st.globalIndex entry with
      | (0, gidx) => (0, { st with files := fs1, globalIndex := gidx })
      | _ => (-1, { st with files := fsUnlink fs1 fsPath })

/-- Model of backend_create_object (backend.c:314): resolve the target
    backend id, failing when none is designated, then run the creation
    body. -/
def backend_create_object (st : MgrState) (req : CreateReq) :
    Int × MgrState :=
  match resolveBackendId st req with
  | none => (-1, st)
  | some backendId => backend_create_object_at st req backendId

/-- Model of backend_migrate_object (backend.c:678).  Look up the URI;
    reject migration to the same backend; when the entry is ephemeral
    require the target to be EPHEMERAL_ONLY; require MIGRATION_SRC on the
    source and MIGRATION_DST on the destination; create the destination
    file and copy size_bytes bytes from the source file (sendfile copies
    at most the source length, and a short copy unlinks the destination
    and aborts); then rewrite the entry's path and backend id to the
    destination and finally unlink the path stored in the entry, which at
    that point is the destination path (backend.c:764-781). -/
def backend_migrate_object (st : MgrState) (uri : String)
    (target : Nat) : Int × MgrState :=
  match st.globalIndex.find? (fun e => e.uri == uri) with
  | none => (-1, st)
  | some entry =>
    if entry.backendId == target then (-1, st)
    else if entry.flags &&& INDEX_FLAG_EPHEMERAL != 0 &&
        !(match getBackend st target with
          | some t => t.flags &&& BACKEND_FLAG_EPHEMERAL_ONLY != 0
          | none => false) then (-1, st)
    else
      match getBackend st entry.backendId, getBackend st target with
      | some srcBackend, some dstBackend =>
        if srcBackend.flags &&& BACKEND_FLAG_MIGRATION_SRC == 0 ||
           dstBackend.flags &&& BACKEND_FLAG_MIGRATION_DST == 0 then
          (-1, st)
        else
          let dstPath := dstBackend.mountPath ++ uri
          let fs1 := fsWrite st.files dstPath []
          match fsLookup fs1 entry.backendPath with
          | none => (-1, { st with files := fsUnlink fs1 dstPath })
          | some srcContent =>
            if srcContent.length < entry.sizeBytes then
              (-1, { st with files := fsUnlink fs1 dstPath })
            else
              let fs2 := fsWrite fs1 dstPath
                (srcContent.take entry.sizeBytes)
              let movedEntry :=
                { entry with backendPath := dstPath, backendId := target }
              let gidx := st.globalIndex.map
                (fun e => if e.uri == uri then movedEntry else e)
              let fs3 := fsUnlink fs2 movedEntry.backendPath
              (0, { st with files := fs3, globalIndex := gidx })
      | _, _ => (-1, st)

/-- One lifecycle operation for the placement invariant. -/
inductive MgrOp where
  | create (req : CreateReq)
  | migrate (uri : String) (target : Nat)
  deriving DecidableEq, Repr

def applyOp (st : MgrState) (op : MgrOp) : MgrState :=
  match op with
  | MgrOp.create req => (backend_create_object st req).2
  | MgrOp.migrate uri target => (backend_migrate_object st uri target).2

def applyOps (st : MgrState) (ops : List MgrOp) : MgrState :=
  ops.foldl applyOp st

/-- The placement invariant the code actually maintains: every entry
    carrying the ephemeral flag lives on a backend with the
    EPHEMERAL_ONLY flag. -/
def EphPlacementInv (st : MgrState) : Prop :=
  ∀ e ∈ st.globalIndex, e.flags &&& INDEX_FLAG_EPHEMERAL ≠ 0 →
    ∃ b, getBackend st e.backendId = some b ∧
      b.flags &&& BACKEND_FLAG_EPHEMERAL_ONLY ≠ 0

/-- A creation request whose miscellaneous flag bits do not already
    contain the ephemeral bit (all in-repo callers pass flags 0). -/
def cleanOp (op : MgrOp) : Prop :=
  match op with
  | MgrOp.create req => req.flags &&& INDEX_FLAG_EPHEMERAL = 0
  | MgrOp.migrate _ _ => True

/- ============================================================
   Out-of-order response correlation
   (protocol.c:636, objm_client_recv_response_for).

   The pending_responses array (indexed by request id, with capacity the
   negotiated max_pipeline) is modelled as an association list from slot
   index to response; storing into a slot overwrites it.  The socket is
   the list of responses still to be received; an empty socket makes the
   receive fail.
   ============================================================ -/

structure Resp where
  id : Nat
  payload : Nat
  deriving DecidableEq, Repr

abbrev PendingTable := List (Nat × Resp)

def pendingGet (p : PendingTable) (i : Nat) : Option Resp :=
  (p.find? (fun x => x.1 == i)).map (fun x => x.2)

def pendingSet (p : PendingTable) (i : Nat) (r : Resp) : PendingTable :=
  (i, r) :: p.filter (fun x => x.1 != i)

def pendingClear (p : PendingTable) (i : Nat) : PendingTable :=
  p.filter (fun x => x.1 != i)

structure ClientConn where
  pendingCapacity : Nat
  pending : PendingTable
  socket : List Resp
  deriving DecidableEq, Repr

/-- The receive loop of objm_client_recv_response_for
    (protocol.c:650-668): drain responses from the socket; return the one
    matching the awaited id; park a non-matching response in its slot
    when its id is below the table capacity, otherwise free it.  Returns
    the result, the pending table, and the rest of the socket. -/
def recvDrain (cap : Nat) (reqId : Nat) :
    PendingTable → List Resp → Option Resp × PendingTable × List Resp
  | pending, [] => (none, pending, [])
  | pending, r :: rest =>
    if r.id == reqId then
      (some r, pending, rest)
    else if r.id < cap then
      recvDrain cap reqId (pendingSet pending r.id r) rest
    else
      recvDrain cap reqId pending rest

/-- Model of objm_client_recv_response_for (protocol.c:636): return a
    parked response when the awaited id is inside the table and its slot
    is occupied, otherwise drain the socket. -/
def objm_client_recv_response_for (conn : ClientConn) (reqId : Nat) :
    Option Resp × ClientConn :=
  if reqId < conn.pendingCapacity ∧ (pendingGet conn.pending reqId).isSome
  then
    (pendingGet conn.pending reqId,
      { conn with pending := pendingClear conn.pending reqId })
  else
    ((recvDrain conn.pendingCapacity reqId conn.pending conn.socket).1,
      { conn with
        pending := (recvDrain conn.pendingCapacity reqId conn.pending
          conn.socket).2.1,
        socket := (recvDrain conn.pendingCapacity reqId conn.pending
          conn.socket).2.2 })

/-- The responses held in the pending table. -/
def pendingVals (p : PendingTable) : List Resp :=
  p.map (fun x => x.2)

/-- Every response retrievable from a connection state: the parked
    responses plus the responses still on the socket. -/
def connPool (conn : ClientConn) : List Resp :=
  pendingVals conn.pending ++ conn.socket

/-- The responses returned by a sequence of recv_response_for calls. -/
def runCalls : ClientConn → List Nat → List Resp
  | _, [] => []
  | conn, reqId :: ids =>
    match objm_client_recv_response_for conn reqId with
    | (some r, conn1) => r :: runCalls conn1 ids
    | (none, conn1) => runCalls conn1 ids

/- ============================================================
   Hotness score (index.c:165, index_calculate_hotness).

   The float arithmetic is idealised over the real numbers; the
   constants 0.693, 0.7, 0.3 and 1000 are those of the source.
   ============================================================ -/

/-- The score computed for a previously accessed entry, as a function of
    the age in microseconds, the access count and the decay halflife in
    seconds (index.c:173-187): an exponential time factor with decay
    constant 0.693, an access factor capped at 1, combined 70/30 and
    clamped at 1. -/
noncomputable def hotness_core (ageUs accessCount halflife : ℕ) : ℝ :=
  min 1 (0.7 * Real.exp (-(0.693) * ((ageUs : ℝ) / 1000000) /
      (halflife : ℝ)) +
    0.3 * min 1 ((accessCount : ℝ) / 1000))

/-- Model of index_calculate_hotness (index.c:165): an entry that was
    never accessed (last_access == 0) scores 0; otherwise the score is
    computed from the age current_time - last_access. -/
noncomputable def index_calculate_hotness
    (lastAccess currentTime accessCount halflife : ℕ) : ℝ :=
  if lastAccess = 0 then 0
  else hotness_core (currentTime - lastAccess) accessCount halflife

/- ============================================================
   Theorems
   ============================================================ -/

/-- C9: backend_index_insert succeeds (returns 0) for every index and
    entry and performs no duplicate check, so inserting an entry whose
    URI is already present in the per-backend index produces two
    simultaneous memberships for that URI; global_index_insert, in
    contrast, fails with -1 on a duplicate URI and leaves the index
    unchanged. -/
theorem c9_backend_insert_no_duplicate_check :
    (∀ idx entry, (backend_index_insert idx entry).1 = 0) ∧
    (∀ idx entry, (backend_index_insert idx entry).2 = entry :: idx) ∧
    (∀ idx entry,
      1 ≤ idx.countP (fun e => e.uri == entry.uri) →
      2 ≤ ((backend_index_insert idx entry).2).countP
            (fun e => e.uri == entry.uri)) ∧
    (∀ idx entry, idx.any (fun e => e.uri == entry.uri) = true →
      global_index_insert idx entry = (-1, idx)) := by
  refine ⟨fun idx entry => rfl, fun idx entry => rfl, ?_, ?_⟩
  · intro idx entry h
    simp only [backend_index_insert, List.countP_cons, beq_self_eq_true,
      if_pos]
    omega
  · intro idx entry h
    simp [global_index_insert, h]

theorem c9_witness :
    2 ≤ ((backend_index_insert [⟨"u", 0, "p", 0, 0⟩]
            ⟨"u", 1, "q", 0, 0⟩).2).countP
          (fun e => e.uri == (⟨"u", 1, "q", 0, 0⟩ : IndexEntry).uri) :=
  c9_backend_insert_no_duplicate_check.2.2.1 _ _ (by decide)

/-- An open environment in which a read-write open would succeed with
    descriptor 5 while a read-only open returns descriptor 6. -/
def c3Env : OpenMode → Option Nat
  | OpenMode.rdwr => some 5
  | OpenMode.rdonly => some 6

/-- C3 counterexample: with no cached descriptor and an environment in
    which O_RDWR would succeed, index_entry_open_fd issues a single
    O_RDONLY open and caches the read-only descriptor; it never attempts
    O_RDWR, so the claimed open-RDWR-with-RDONLY-fallback behaviour is
    false on the code. -/
theorem c3_counterexample :
    (index_entry_open_fd c3Env none none).opens = [OpenMode.rdonly] ∧
    (index_entry_open_fd c3Env none none).cachedFd = some 6 ∧
    (index_entry_open_fd c3Env none none).opens ≠ claimedOpenSequence c3Env
    := by
  refine ⟨rfl, rfl, ?_⟩
  decide

/-- C3 amended: for an entry with no cached descriptor,
    index_entry_open_fd opens the backend path with O_RDONLY (it never
    attempts O_RDWR), compare-and-swaps the new descriptor into the
    entry, and when another caller wins the race the new descriptor is
    closed and the call still succeeds; a cached descriptor short-cuts
    the call and an open failure returns -1. -/
theorem c3_open_fd_behavior (openFile : OpenMode → Option Nat)
    (casView cached : Option Nat) :
    (∀ fd, cached = some fd →
      index_entry_open_fd openFile casView cached = ⟨0, some fd, [], []⟩) ∧
    (cached = none → openFile OpenMode.rdonly = none →
      index_entry_open_fd openFile casView cached =
        ⟨-1, none, [OpenMode.rdonly], []⟩) ∧
    (∀ fd, cached = none → openFile OpenMode.rdonly = some fd →
      casView = none →
      index_entry_open_fd openFile casView cached =
        ⟨0, some fd, [OpenMode.rdonly], []⟩) ∧
    (∀ fd g, cached = none → openFile OpenMode.rdonly = some fd →
      casView = some g →
      index_entry_open_fd openFile casView cached =
        ⟨0, some g, [OpenMode.rdonly], [fd]⟩) := by
  refine ⟨?_, ?_, ?_, ?_⟩ <;> intros <;> subst_vars <;>
    simp [index_entry_open_fd, *]

theorem c3_witness :
    index_entry_open_fd c3Env (some 9) none =
      ⟨0, some 9, [OpenMode.rdonly], [6]⟩ :=
  (c3_open_fd_behavior c3Env (some 9) none).2.2.2 6 9 rfl rfl rfl

/-- C4: for every client HELLO with capabilities and max_pipeline and
    every server declaration, the V2 handshake negotiates capabilities
    equal to the bitwise AND and max_pipeline equal to the minimum, and
    the HELLO_ACK carries exactly the negotiated values (decoded with
    ntohs from its byte positions 5..8) together with the server's
    backend_parallelism byte at position 9. -/
theorem c4_handshake_negotiation (serverHello : ObjmHello)
    (clientCaps clientPipeline : Nat)
    (hcs : serverHello.capabilities < 65536)
    (hcc : clientCaps < 65536) (hcp : clientPipeline < 65536)
    (hps : serverHello.maxPipeline < 65536) :
    (objm_server_handshake_v2 serverHello clientCaps
        clientPipeline).1.capabilities =
      clientCaps &&& serverHello.capabilities ∧
    (objm_server_handshake_v2 serverHello clientCaps
        clientPipeline).1.maxPipeline =
      min clientPipeline serverHello.maxPipeline ∧
    ntohs16 ((objm_server_handshake_v2 serverHello clientCaps
        clientPipeline).2.get! 5)
      ((objm_server_handshake_v2 serverHello clientCaps
        clientPipeline).2.get! 6) =
      clientCaps &&& serverHello.capabilities ∧
    ntohs16 ((objm_server_handshake_v2 serverHello clientCaps
        clientPipeline).2.get! 7)
      ((objm_server_handshake_v2 serverHello clientCaps
        clientPipeline).2.get! 8) =
      min clientPipeline serverHello.maxPipeline ∧
    (objm_server_handshake_v2 serverHello clientCaps
        clientPipeline).2.get! 9 = serverHello.backendParallelism := by
  have hand : clientCaps &&& serverHello.capabilities < 65536 := by
    have h2 : serverHello.capabilities < 2 ^ 16 := by norm_num at hcs ⊢; omega
    have := Nat.and_lt_two_pow clientCaps h2
    norm_num at this ⊢
    omega
  have hmin : min clientPipeline serverHello.maxPipeline < 65536 := by
    omega
  refine ⟨rfl, ?_, ?_, ?_, ?_⟩ <;>
    simp only [objm_server_handshake_v2, objmMagicBytes, htons16, ntohs16,
      List.cons_append, List.nil_append, List.get!] <;>
    first
      | omega
      | (split_ifs <;> omega)

theorem c4_witness :
    (objm_server_handshake_v2 ⟨19, 50, 2⟩ 3 100).1.capabilities =
      3 &&& 19 ∧
    (objm_server_handshake_v2 ⟨19, 50, 2⟩ 3 100).1.maxPipeline =
      min 100 50 ∧
    (objm_server_handshake_v2 ⟨19, 50, 2⟩ 3 100).2.get! 9 = 2 := by
  have h := c4_handshake_negotiation ⟨19, 50, 2⟩ 3 100 (by decide)
    (by decide) (by decide) (by decide)
  exact ⟨h.1, h.2.1, h.2.2.2.2⟩

/-- The migration scenario for C1: two enabled backends that both allow
    migration in and out, and one persistent 3-byte object on backend 0.
    Flag value 54 = PERSISTENT + ENABLED + MIGRATION_SRC +
    MIGRATION_DST. -/
def c1State : MgrState :=
  { backends := [⟨0, "/m0", 54⟩, ⟨1, "/m1", 54⟩],
    globalIndex := [⟨"/u", 0, "/m0/u", INDEX_FLAG_PERSISTENT, 3⟩],
    files := [("/m0/u", [10, 20, 30])],
    defaultBackendId := some 0,
    ephemeralBackendId := none }

/-- C1: backend_migrate_object rewrites the entry's backend_path to the
    destination path before the final unlink of entry->backend_path
    (backend.c:764-781), so a successful migration unlinks the freshly
    populated destination file and leaves the source file in place: the
    body is not preserved at the path a subsequent get would return.
    Evaluated at the concrete failing input: migration of /u from
    backend 0 to backend 1 returns success, the entry now points at
    /m1/u, yet /m1/u no longer exists while /m0/u still holds the
    original bytes. -/
theorem c1_migrate_unlinks_destination :
    (backend_migrate_object c1State "/u" 1).1 = 0 ∧
    ((backend_migrate_object c1State "/u" 1).2.globalIndex.find?
        (fun e => e.uri == "/u")).map (fun e => e.backendPath) =
      some "/m1/u" ∧
    fsLookup (backend_migrate_object c1State "/u" 1).2.files "/m1/u" =
      none ∧
    fsLookup (backend_migrate_object c1State "/u" 1).2.files "/m0/u" =
      some [10, 20, 30] := by
  refine ⟨rfl, rfl, rfl, rfl⟩

/-- The creation scenario for C2: backend 0 is the persistent default
    (flags PERSISTENT + ENABLED = 6), backend 1 is ephemeral-only and
    enabled (flags EPHEMERAL_ONLY + ENABLED = 5). -/
def c2State : MgrState :=
  { backends := [⟨0, "/m0", 6⟩, ⟨1, "/m1", 5⟩],
    globalIndex := [],
    files := [],
    defaultBackendId := some 0,
    ephemeralBackendId := some 1 }

/-- C2 counterexample: a non-ephemeral create with an explicit backend
    hint naming the ephemeral-only backend succeeds — the code only
    rejects the ephemeral-on-non-ephemeral-only direction — so the
    claimed rejection of persistent objects on ephemeral-only backends
    is false on the code. -/
theorem c2_counterexample :
    (backend_create_object c2State ⟨"/u", some 1, false, 0⟩).1 = 0 ∧
    ((backend_create_object c2State
        ⟨"/u", some 1, false, 0⟩).2.globalIndex.find?
        (fun e => e.uri == "/u")).map (fun e => e.backendId) = some 1 ∧
    ((backend_create_object c2State
        ⟨"/u", some 1, false, 0⟩).2.globalIndex.find?
        (fun e => e.uri == "/u")).map
        (fun e => e.flags &&& INDEX_FLAG_EPHEMERAL) = some 0 ∧
    (getBackend c2State 1).map
        (fun b => b.flags &&& BACKEND_FLAG_EPHEMERAL_ONLY) = some 1 := by
  refine ⟨rfl, rfl, ?_, rfl⟩
  decide

theorem lor_two_and_one_eq_zero (f : Nat) (h : f &&& 1 = 0) :
    (f ||| 2) &&& 1 = 0 := by
  have h2 : (f ||| 2) &&& 1 ≠ 0 ↔ f &&& 1 ≠ 0 := by
    norm_num [Nat.and_one_is_mod]
  by_contra hc
  exact (h2.mp hc) h

theorem lor_one_and_one_ne_zero (f : Nat) : (f ||| 1) &&& 1 ≠ 0 := by
  have h : (f ||| 1) &&& 1 = 1 := by norm_num [Nat.and_one_is_mod]
  omega

theorem global_index_insert_ok (idx : List IndexEntry)
    (entry : IndexEntry) (gidx : List IndexEntry)
    (h : global_index_insert idx entry = (0, gidx)) :
    gidx = entry :: idx := by
  unfold global_index_insert at h
  split at h
  · simp at h
  · simp only [Prod.mk.injEq] at h
    exact h.2.symm

theorem create_at_preserves_inv (st : MgrState) (req : CreateReq)
    (backendId : Nat) (hinv : EphPlacementInv st)
    (hclean : req.flags &&& INDEX_FLAG_EPHEMERAL = 0) :
    EphPlacementInv (backend_create_object_at st req backendId).2 := by
  unfold backend_create_object_at
  cases hb : getBackend st backendId with
  | none => exact hinv
  | some backend =>
    dsimp only
    by_cases h1 : (backend.flags &&& BACKEND_FLAG_ENABLED == 0) = true
    · simp only [h1, if_true]
      exact hinv
    · rw [if_neg h1]
      by_cases h2 : (req.ephemeral &&
          (backend.flags &&& BACKEND_FLAG_EPHEMERAL_ONLY == 0)) = true
      · rw [if_pos h2]
        exact hinv
      · rw [if_neg h2]
        split
        next gidx hins =>
          have hg := global_index_insert_ok _ _ _ hins
          intro e he heph
          simp only at he
          rw [hg] at he
          rcases List.mem_cons.mp he with he1 | he2
          · subst he1
            simp only at heph
            by_cases heph2 : req.ephemeral = true
            · have hflag : backend.flags &&& BACKEND_FLAG_EPHEMERAL_ONLY
                  ≠ 0 := by
                rw [heph2] at h2
                simpa using h2
              exact ⟨backend, hb, hflag⟩
            · exfalso
              apply heph
              simp only [Bool.not_eq_true] at heph2
              simp only [heph2, if_false]
              exact lor_two_and_one_eq_zero _ hclean
          · obtain ⟨b, hb2, hb3⟩ := hinv e he2 heph
            exact ⟨b, hb2, hb3⟩
        next r hins =>
          intro e he heph
          simp only at he
          obtain ⟨b, hb2, hb3⟩ := hinv e he heph
          exact ⟨b, hb2, hb3⟩

theorem create_preserves_inv (st : MgrState) (req : CreateReq)
    (hinv : EphPlacementInv st)
    (hclean : req.flags &&& INDEX_FLAG_EPHEMERAL = 0) :
    EphPlacementInv (backend_create_object st req).2 := by
  unfold backend_create_object
  cases hch : resolveBackendId st req with
  | none => exact hinv
  | some backendId =>
    exact create_at_preserves_inv st req backendId hinv hclean

theorem migrate_preserves_inv (st : MgrState) (uri : String)
    (target : Nat) (hinv : EphPlacementInv st) :
    EphPlacementInv (backend_migrate_object st uri target).2 := by
  unfold backend_migrate_object
  cases hf : st.globalIndex.find? (fun e => e.uri == uri) with
  | none => simpa [hf] using hinv
  | some entry =>
    simp only [hf]
    by_cases h1 : (entry.backendId == target) = true
    · simpa [h1] using hinv
    · by_cases h2 : (entry.flags &&& INDEX_FLAG_EPHEMERAL != 0 &&
          !(match getBackend st target with
            | some t => t.flags &&& BACKEND_FLAG_EPHEMERAL_ONLY != 0
            | none => false)) = true
      · simpa [h1, h2] using hinv
      · simp only [h1, h2, Bool.false_eq_true, if_false]
        cases hsrc : getBackend st entry.backendId with
        | none => simpa using hinv
        | some srcBackend =>
          cases hdst : getBackend st target with
          | none => simpa using hinv
          | some dstBackend =>
            simp only
            by_cases h3 : (srcBackend.flags &&& BACKEND_FLAG_MIGRATION_SRC
                == 0 || dstBackend.flags &&& BACKEND_FLAG_MIGRATION_DST
                == 0) = true
            · simpa [h3] using hinv
            · simp only [h3, Bool.false_eq_true, if_false]
              cases hlk : fsLookup (fsWrite st.files
                  (dstBackend.mountPath ++ uri) []) entry.backendPath with
              | none => simpa using hinv
              | some srcContent =>
                simp only
                by_cases h4 : srcContent.length < entry.sizeBytes
                · simpa [h4] using hinv
                · simp only [h4, if_false]
                  intro e he heph
                  simp only [List.mem_map] at he
                  obtain ⟨e0, he0, he1⟩ := he
                  by_cases hu : (e0.uri == uri) = true
                  · rw [if_pos hu] at he1
                    subst he1
                    simp only at heph
                    have hent : entry.flags &&& INDEX_FLAG_EPHEMERAL ≠ 0 :=
                      heph
                    have htgt : (match getBackend st target with
                        | some t =>
                          t.flags &&& BACKEND_FLAG_EPHEMERAL_ONLY != 0
                        | none => false) = true := by
                      by_contra hcon
                      apply h2
                      simp only [Bool.and_eq_true, bne_iff_ne, ne_eq,
                        Bool.not_eq_true]
                      constructor
                      · simpa using hent
                      · simp only [Bool.not_eq_true] at hcon
                        simp [hcon]
                    rw [hdst] at htgt
                    simp only [bne_iff_ne, ne_eq, decide_eq_true_eq] at htgt
                    exact ⟨dstBackend, hdst, by simpa using htgt⟩
                  · rw [if_neg hu] at he1
                    subst he1
                    obtain ⟨b, hb2, hb3⟩ := hinv e0 he0 heph
                    exact ⟨b, hb2, hb3⟩

/-- C2 amended: the code enforces only one direction of the placement
    rule.  Under any sequence of backend_create_object and
    backend_migrate_object calls whose creation requests do not smuggle
    the ephemeral bit in their miscellaneous flags, every entry carrying
    the ephemeral flag remains on a backend with the EPHEMERAL_ONLY
    flag; the reverse direction is not enforced (see the
    counterexample). -/
theorem c2_ephemeral_placement_invariant (st : MgrState)
    (ops : List MgrOp) (hinv : EphPlacementInv st)
    (hclean : ∀ op ∈ ops, cleanOp op) :
    EphPlacementInv (applyOps st ops) := by
  induction ops generalizing st with
  | nil => exact hinv
  | cons op rest ih =>
    have hstep : EphPlacementInv (applyOp st op) := by
      cases op with
      | create req =>
        exact create_preserves_inv st req hinv
          (hclean (MgrOp.create req) (List.mem_cons_self _ _))
      | migrate uri target =>
        exact migrate_preserves_inv st uri target hinv
    exact ih (applyOp st op) hstep
      (fun op2 h2 => hclean op2 (List.mem_cons_of_mem _ h2))

theorem c2_witness :
    EphPlacementInv (applyOps c2State
      [MgrOp.create ⟨"/e", none, true, 0⟩,
       MgrOp.migrate "/e" 0]) := by
  apply c2_ephemeral_placement_invariant
  · intro e he
    simp [c2State] at he
  · intro op hop
    simp only [List.mem_cons, List.mem_singleton] at hop
    rcases hop with h | h | h
    · subst h
      exact (by decide : (0 : Nat) &&& INDEX_FLAG_EPHEMERAL = 0)
    · subst h
      exact trivial
    · exact absurd h (by simp)

/- ============================================================
   C5: segmented response acceptance.
   ============================================================ -/

/-- The per-segment length rules of the claim: INLINE carries its bytes
    inline, FD and SPLICE carry none and reference at least
    logical_length stored bytes. -/
def SegTypeValid (s : Seg) : Prop :=
  (s.type = OBJM_SEG_TYPE_INLINE ∧ s.copyLength = s.logicalLength) ∨
  ((s.type = OBJM_SEG_TYPE_FD ∨ s.type = OBJM_SEG_TYPE_SPLICE) ∧
    s.copyLength = 0 ∧ s.logicalLength ≤ s.storageLength)

/-- A segment that supplies a descriptor to the receive loop: FD or
    SPLICE type without the REUSE_FD flag. -/
def SuppliesFd (s : Seg) : Prop :=
  isFdSeg s = true ∧ hasReuseFlag s = false

/-- Every FD or SPLICE segment carrying REUSE_FD is preceded by a
    segment that supplied a descriptor. -/
def ReuseValid (segs : List Seg) : Prop :=
  ∀ pre s post, segs = pre ++ s :: post → isFdSeg s = true →
    hasReuseFlag s = true → ∃ t ∈ pre, SuppliesFd t

/-- The claim's rule that no segment may follow a FIN segment: every
    segment carrying FIN is the last one. -/
def noSegmentAfterFin (segs : List Seg) : Prop :=
  ∀ pre s post, segs = pre ++ s :: post → hasFinFlag s = true → post = []

/-- Two INLINE segments that both carry FIN: accepted by the code, but a
    segment follows a FIN segment. -/
def c5Segs : List Seg := [⟨0, 1, 4, 4, 0, 0⟩, ⟨0, 1, 4, 4, 0, 0⟩]

/-- C5 counterexample: recv_segmented_payload checks FIN only on the
    final segment, so a response whose first segment also carries FIN is
    accepted even though a segment follows a FIN; the claimed rejection
    of segments after a FIN is false on the code. -/
theorem c5_counterexample :
    ¬ (∀ segs, recv_segmented_payload segs = true →
        noSegmentAfterFin segs) := by
  intro h
  have h2 := h c5Segs (by decide) [] ⟨0, 1, 4, 4, 0, 0⟩
    [⟨0, 1, 4, 4, 0, 0⟩] rfl (by decide)
  exact absurd h2 (by decide)

theorem fdRecvLoop_of_true (segs : List Seg) :
    fdRecvLoop segs true = true := by
  induction segs with
  | nil => rfl
  | cons s rest ih =>
    unfold fdRecvLoop
    by_cases h1 : isFdSeg s = true
    · simp [h1, ih]
    · simp [h1, ih]

theorem forall_decomp_cons {α : Type} (a : α) (rest : List α)
    (P : List α → α → List α → Prop) :
    (∀ pre s post, a :: rest = pre ++ s :: post → P pre s post) ↔
      (P [] a rest ∧
        ∀ pre s post, rest = pre ++ s :: post → P (a :: pre) s post) := by
  constructor
  · intro h
    exact ⟨h [] a rest rfl,
      fun pre s post hd => h (a :: pre) s post (by simp [hd])⟩
  · rintro ⟨h1, h2⟩ pre s post hd
    cases pre with
    | nil =>
      simp only [List.nil_append, List.cons.injEq] at hd
      rw [← hd.1, ← hd.2]
      exact h1
    | cons x pre1 =>
      simp only [List.cons_append, List.cons.injEq] at hd
      rw [← hd.1]
      exact h2 pre1 s post hd.2

theorem fdRecvLoop_iff (segs : List Seg) (b : Bool) :
    fdRecvLoop segs b = true ↔
      ∀ pre s post, segs = pre ++ s :: post → isFdSeg s = true →
        hasReuseFlag s = true → (b = true ∨ ∃ t ∈ pre, SuppliesFd t) := by
  induction segs generalizing b with
  | nil =>
    simp only [fdRecvLoop]
    constructor
    · intro _ pre s post h
      exact absurd h (by cases pre <;> simp)
    · intro _
      trivial
  | cons a rest ih =>
    rw [forall_decomp_cons a rest (fun pre s post => isFdSeg s = true →
      hasReuseFlag s = true → (b = true ∨ ∃ t ∈ pre, SuppliesFd t))]
    by_cases hfd : isFdSeg a = true
    · by_cases hr : hasReuseFlag a = true
      · have hl : fdRecvLoop (a :: rest) b = (b && fdRecvLoop rest b) := by
          simp [fdRecvLoop, hfd, hr]
        rw [hl, Bool.and_eq_true, ih]
        constructor
        · rintro ⟨hb, hrest⟩
          refine ⟨fun _ _ => Or.inl hb, ?_⟩
          intro pre s post hdec hfs hrs
          rcases hrest pre s post hdec hfs hrs with hb2 | ⟨t, ht, hS⟩
          · exact Or.inl hb2
          · exact Or.inr ⟨t, List.mem_cons_of_mem _ ht, hS⟩
        · rintro ⟨h1, h2⟩
          have hb : b = true := by
            rcases h1 hfd hr with hb | ⟨t, ht, _⟩
            · exact hb
            · exact absurd ht (List.not_mem_nil t)
          refine ⟨hb, ?_⟩
          intro pre s post hdec hfs hrs
          rcases h2 pre s post hdec hfs hrs with hb2 | ⟨t, ht, hS⟩
          · exact Or.inl hb2
          · rcases List.mem_cons.mp ht with heq | ht2
            · subst heq
              exact absurd hS.2 (by simp [hr])
            · exact Or.inr ⟨t, ht2, hS⟩
      · have hl : fdRecvLoop (a :: rest) b = fdRecvLoop rest true := by
          simp [fdRecvLoop, hfd, hr]
        rw [hl]
        simp only [fdRecvLoop_of_true, true_iff]
        refine ⟨fun hfs hrs => absurd hrs hr, ?_⟩
        intro pre s post hdec hfs hrs
        exact Or.inr ⟨a, List.mem_cons_self a pre,
          hfd, by simpa using hr⟩
    · have hl : fdRecvLoop (a :: rest) b = fdRecvLoop rest b := by
        simp [fdRecvLoop, hfd]
      rw [hl, ih]
      constructor
      · intro hrest
        refine ⟨fun hfs => absurd hfs hfd, ?_⟩
        intro pre s post hdec hfs hrs
        rcases hrest pre s post hdec hfs hrs with hb | ⟨t, ht, hS⟩
        · exact Or.inl hb
        · exact Or.inr ⟨t, List.mem_cons_of_mem _ ht, hS⟩
      · rintro ⟨h1, h2⟩ pre s post hdec hfs hrs
        rcases h2 pre s post hdec hfs hrs with hb | ⟨t, ht, hS⟩
        · exact Or.inl hb
        · rcases List.mem_cons.mp ht with heq | ht2
          · subst heq
            exact absurd hS.1 hfd
          · exact Or.inr ⟨t, ht2, hS⟩

theorem segTypeCheck_iff (s : Seg) :
    segTypeCheck s = true ↔ SegTypeValid s := by
  unfold segTypeCheck SegTypeValid OBJM_SEG_TYPE_INLINE OBJM_SEG_TYPE_FD
    OBJM_SEG_TYPE_SPLICE
  split_ifs with h1 h2
  · simp_all
  · simp_all
  · simp_all

theorem lastFin_iff (segs : List Seg) :
    (match segs.getLast? with
     | some s => hasFinFlag s
     | none => false) = true ↔
      ∃ last, segs.getLast? = some last ∧ hasFinFlag last = true := by
  cases h : segs.getLast? with
  | none => simp
  | some s => simp [h]

/-- C5 amended: recv_segmented_payload accepts a segment table exactly
    when the segment count is between 1 and OBJM_MAX_SEGMENTS, every
    segment satisfies its type's length rule, every FD or SPLICE segment
    carrying REUSE_FD is preceded by a segment that supplied a
    descriptor, and the final segment carries FIN.  The code does not
    reject a FIN on a non-final segment, and a REUSE_FD flag on an
    INLINE segment is ignored (see the counterexample). -/
theorem c5_accept_characterization (segs : List Seg) :
    recv_segmented_payload segs = true ↔
      (1 ≤ segs.length ∧ segs.length ≤ OBJM_MAX_SEGMENTS ∧
       (∀ s ∈ segs, SegTypeValid s) ∧
       ReuseValid segs ∧
       ∃ last, segs.getLast? = some last ∧ hasFinFlag last = true) := by
  have hfin := lastFin_iff segs
  have hfd := fdRecvLoop_iff segs false
  have hall : segs.all segTypeCheck = true ↔ ∀ s ∈ segs, SegTypeValid s := by
    rw [List.all_eq_true]
    constructor
    · intro h s hs
      exact (segTypeCheck_iff s).mp (h s hs)
    · intro h s hs
      exact (segTypeCheck_iff s).mpr (h s hs)
  unfold recv_segmented_payload
  simp only [Bool.and_eq_true, decide_eq_true_eq]
  rw [hfin, hfd, hall]
  unfold ReuseValid
  simp only [Bool.false_eq_true, false_or]
  tauto

/- ============================================================
   C6: payload descriptor validation.
   ============================================================ -/

/-- The claim's per-variant rules: non-empty identifier, positive
    lengths, storage at least logical under identity encoding, a known
    encoding tag, capability bits consistent with the encoding, and a
    positive range granularity when range-ready. -/
def VariantValid (v : VariantDescriptor) : Prop :=
  v.variantId.headD 0 ≠ 0 ∧
  0 < v.logicalLength ∧
  0 < v.storageLength ∧
  (v.encoding = OBJM_ENCODING_IDENTITY →
    v.logicalLength ≤ v.storageLength) ∧
  (v.encoding = OBJM_ENCODING_IDENTITY ∨
   v.encoding = OBJM_ENCODING_GZIP ∨
   v.encoding = OBJM_ENCODING_BROTLI ∨
   v.encoding = OBJM_ENCODING_ZSTD ∨
   v.encoding = OBJM_ENCODING_CUSTOM) ∧
  (v.capabilities &&& OBJM_CAP_IDENTITY ≠ 0 →
    v.encoding = OBJM_ENCODING_IDENTITY) ∧
  (v.capabilities &&& OBJM_CAP_GZIP ≠ 0 →
    v.encoding = OBJM_ENCODING_GZIP) ∧
  (v.capabilities &&& OBJM_CAP_RANGE_READY ≠ 0 →
    0 < v.rangeGranularity)

/-- The claim's descriptor rules: schema version, variant count between
    1 and 8, every active variant valid, and exactly one active variant
    marked primary. -/
def DescriptorValid (d : PayloadDescriptor) : Prop :=
  d.version = OBJM_PAYLOAD_DESCRIPTOR_VERSION ∧
  1 ≤ d.variantCount ∧
  d.variantCount ≤ OBJM_MAX_VARIANTS ∧
  (∀ v ∈ activeVariants d, VariantValid v) ∧
  (activeVariants d).countP (fun v => v.isPrimary != 0) = 1

theorem validate_variant_iff (v : VariantDescriptor) :
    validate_variant v = true ↔ VariantValid v := by
  unfold validate_variant VariantValid
  simp only [Bool.and_eq_true, Bool.not_eq_true', Bool.and_eq_false_iff,
    beq_eq_false_iff_ne, ne_eq, beq_iff_eq, Bool.or_eq_true,
    decide_eq_false_iff_not, not_lt, Bool.not_eq_true, Bool.not_eq_false',
    bne_eq_false_iff_eq, Nat.pos_iff_ne_zero]
  tauto

/-- C6: objm_payload_descriptor_validate succeeds exactly when the
    descriptor satisfies every rule of the claim (schema version,
    variant count in 1..8, per-variant identifier, length, encoding and
    capability rules, and a unique primary variant), and
    backend_set_payload_metadata fails, leaving the store untouched, for
    every descriptor that fails validation. -/
theorem c6_validate_characterization :
    (∀ d, objm_payload_descriptor_validate d = true ↔
      DescriptorValid d) ∧
    (∀ store uri p, objm_payload_descriptor_validate p = false →
      backend_set_payload_metadata store uri p = (-1, store)) := by
  constructor
  · intro d
    unfold objm_payload_descriptor_validate DescriptorValid
    simp only [Bool.and_eq_true, beq_iff_eq, Bool.not_eq_true',
      beq_eq_false_iff_ne, ne_eq, decide_eq_true_eq, List.all_eq_true]
    have hv : (∀ v ∈ activeVariants d, validate_variant v = true) ↔
        ∀ v ∈ activeVariants d, VariantValid v := by
      constructor
      · intro h v hv2
        exact (validate_variant_iff v).mp (h v hv2)
      · intro h v hv2
        exact (validate_variant_iff v).mpr (h v hv2)
    rw [hv]
    constructor
    · rintro ⟨⟨⟨⟨h1, h2⟩, h3⟩, h4⟩, h5⟩
      exact ⟨h1, Nat.one_le_iff_ne_zero.mpr h2, h3, h4, h5⟩
    · rintro ⟨h1, h2, h3, h4, h5⟩
      exact ⟨⟨⟨⟨h1, Nat.one_le_iff_ne_zero.mp h2⟩, h3⟩, h4⟩, h5⟩
  · intro store uri p h
    simp [backend_set_payload_metadata, h]

theorem c6_witness :
    backend_set_payload_metadata [] "/u" ⟨0, 0, 0, []⟩ = (-1, []) :=
  c6_validate_characterization.2 [] "/u" ⟨0, 0, 0, []⟩ (by decide)

/- ============================================================
   C7: hotness score properties.
   ============================================================ -/

theorem hotness_core_nonneg_le_one (ageUs accessCount halflife : ℕ) :
    0 ≤ hotness_core ageUs accessCount halflife ∧
    hotness_core ageUs accessCount halflife ≤ 1 := by
  unfold hotness_core
  refine ⟨le_min (by norm_num) ?_, min_le_left _ _⟩
  apply add_nonneg
  · positivity
  · apply mul_nonneg (by norm_num)
    apply le_min (by norm_num)
    positivity

theorem hotness_core_age_antitone (a1 a2 accessCount halflife : ℕ)
    (hhl : 0 < halflife) (h : a1 ≤ a2) :
    hotness_core a2 accessCount halflife ≤
      hotness_core a1 accessCount halflife := by
  unfold hotness_core
  apply min_le_min le_rfl
  apply add_le_add _ le_rfl
  apply mul_le_mul_of_nonneg_left _ (by norm_num)
  apply Real.exp_le_exp.mpr
  have hhl2 : (0 : ℝ) < (halflife : ℝ) := by exact_mod_cast hhl
  apply (div_le_div_iff_of_pos_right hhl2).mpr
  apply mul_le_mul_of_nonpos_left _ (by norm_num)
  apply (div_le_div_iff_of_pos_right (by norm_num : (0 : ℝ) < 1000000)).mpr
  exact_mod_cast h

theorem hotness_core_access_monotone (ageUs ac1 ac2 halflife : ℕ)
    (h : ac1 ≤ ac2) :
    hotness_core ageUs ac1 halflife ≤ hotness_core ageUs ac2 halflife := by
  unfold hotness_core
  apply min_le_min le_rfl
  apply add_le_add le_rfl
  apply mul_le_mul_of_nonneg_left _ (by norm_num)
  apply min_le_min le_rfl
  apply (div_le_div_iff_of_pos_right (by norm_num : (0 : ℝ) < 1000)).mpr
  exact_mod_cast h

/-- C7: the computed hotness score always lies in the interval from 0
    to 1, a never-accessed entry (last_access = 0) scores 0, and with
    the float arithmetic idealised over the reals the score is
    monotonically non-increasing in the age since last access at fixed
    access count (for a positive halflife) and monotonically
    non-decreasing in the access count at fixed age. -/
theorem c7_hotness_properties :
    (∀ lastAccess currentTime accessCount halflife : ℕ,
      0 ≤ index_calculate_hotness lastAccess currentTime accessCount
        halflife ∧
      index_calculate_hotness lastAccess currentTime accessCount halflife
        ≤ 1) ∧
    (∀ currentTime accessCount halflife : ℕ,
      index_calculate_hotness 0 currentTime accessCount halflife = 0) ∧
    (∀ lastAccess ct1 ct2 accessCount halflife : ℕ,
      lastAccess ≠ 0 → 0 < halflife → lastAccess ≤ ct1 → ct1 ≤ ct2 →
      index_calculate_hotness lastAccess ct2 accessCount halflife ≤
        index_calculate_hotness lastAccess ct1 accessCount halflife) ∧
    (∀ lastAccess currentTime ac1 ac2 halflife : ℕ, ac1 ≤ ac2 →
      index_calculate_hotness lastAccess currentTime ac1 halflife ≤
        index_calculate_hotness lastAccess currentTime ac2 halflife) := by
  refine ⟨?_, ?_, ?_, ?_⟩
  · intro la ct ac hl
    unfold index_calculate_hotness
    split_ifs
    · norm_num
    · exact hotness_core_nonneg_le_one _ _ _
  · intro ct ac hl
    simp [index_calculate_hotness]
  · intro la ct1 ct2 ac hl hla hhl h1 h2
    unfold index_calculate_hotness
    rw [if_neg hla, if_neg hla]
    exact hotness_core_age_antitone _ _ _ _ hhl (Nat.sub_le_sub_right h2 _)
  · intro la ct ac1 ac2 hl h
    unfold index_calculate_hotness
    split_ifs
    · exact le_rfl
    · exact hotness_core_access_monotone _ _ _ _ h

theorem c7_witness :
    index_calculate_hotness 1 2 0 3600 ≤
      index_calculate_hotness 1 1 0 3600 ∧
    index_calculate_hotness 1 2 0 3600 ≤
      index_calculate_hotness 1 2 5 3600 := by
  constructor
  · exact c7_hotness_properties.2.2.1 1 1 2 0 3600 (by decide) (by decide)
      (by decide) (by decide)
  · exact c7_hotness_properties.2.2.2 1 2 0 5 3600 (by decide)

/- ============================================================
   C8: lookup reports success even when the backend file cannot be
   opened.
   ============================================================ -/

theorem recordAccessAt_fdRefcount (now : Nat) (l : List GEntry)
    (uri : String) :
    (recordAccessAt now l uri).map (fun x => x.fdRefcount) =
      l.map (fun x => x.fdRefcount) := by
  unfold recordAccessAt
  rw [List.map_map]
  apply List.map_congr_left
  intro e he
  unfold record_access
  simp only [Function.comp_apply]
  split <;> rfl

theorem lookup_fd_none (openFile : String → OpenMode → Option Nat)
    (now : Nat) (uri : String) (e : GEntry)
    (hrw : openFile e.backendPath OpenMode.rdwr = none)
    (hro : openFile e.backendPath OpenMode.rdonly = none) :
    ∀ idx : List GEntry, idx.find? (fun x => x.uri == uri) = some e →
      ∃ idx1,
        global_index_lookup openFile now idx uri = some (none, idx1) ∧
        idx1.map (fun x => x.fdRefcount) =
          idx.map (fun x => x.fdRefcount) := by
  intro idx
  induction idx with
  | nil =>
    intro h
    simp at h
  | cons a rest ih =>
    intro hfind
    by_cases ha : (a.uri == uri) = true
    · rw [List.find?_cons_of_pos (p := fun x => x.uri == uri) rest ha]
        at hfind
      injection hfind with hae
      subst hae
      have hopen : lookupOpen openFile a.backendPath = none := by
        unfold lookupOpen
        rw [hrw, hro]
      unfold global_index_lookup
      rw [if_pos ha, hopen]
      refine ⟨_, rfl, ?_⟩
      simp [record_access, hopen]
    · rw [List.find?_cons_of_neg (p := fun x => x.uri == uri) rest
        (by simpa using ha)] at hfind
      obtain ⟨idx1, h1, h2⟩ := ih hfind
      unfold global_index_lookup
      rw [if_neg ha, h1]
      refine ⟨a :: idx1, rfl, ?_⟩
      simp [h2]

/-- C8: for a URI present in the global index whose entry's backend
    file cannot be opened (both the O_RDWR attempt and the O_RDONLY
    fallback fail), global_index_lookup and backend_get_object both
    report success; the returned handle's fd field is -1 (none) and no
    entry's fd_refcount is incremented, so the caller only discovers
    the failure by inspecting the fd. -/
theorem c8_lookup_succeeds_without_fd
    (openFile : String → OpenMode → Option Nat) (now : Nat)
    (idx : List GEntry) (uri : String) (e : GEntry)
    (hfind : idx.find? (fun x => x.uri == uri) = some e)
    (hrw : openFile e.backendPath OpenMode.rdwr = none)
    (hro : openFile e.backendPath OpenMode.rdonly = none) :
    (global_index_lookup openFile now idx uri).isSome = true ∧
    (global_index_lookup openFile now idx uri).map (fun r => r.1) =
      some none ∧
    (global_index_lookup openFile now idx uri).map
        (fun r => r.2.map (fun x => x.fdRefcount)) =
      some (idx.map (fun x => x.fdRefcount)) ∧
    (backend_get_object openFile now idx uri).map (fun r => r.1) =
      some none ∧
    (backend_get_object openFile now idx uri).map
        (fun r => r.2.map (fun x => x.fdRefcount)) =
      some (idx.map (fun x => x.fdRefcount)) := by
  obtain ⟨idx1, h1, h2⟩ := lookup_fd_none openFile now uri e hrw hro idx
    hfind
  unfold backend_get_object
  rw [h1]
  refine ⟨rfl, rfl, by simp [h2], rfl, ?_⟩
  simp [recordAccessAt_fdRefcount, h2]

def c8Entry : GEntry := ⟨"/u", "/p", 0, 1, 0, 0, 0⟩

theorem c8_witness :
    (global_index_lookup (fun _ _ => none) 7 [c8Entry] "/u").map
        (fun r => r.1) = some none ∧
    (backend_get_object (fun _ _ => none) 7 [c8Entry] "/u").map
        (fun r => r.1) = some none := by
  have h := c8_lookup_succeeds_without_fd (fun _ _ => none) 7 [c8Entry]
    "/u" c8Entry (by decide) rfl rfl
  exact ⟨h.2.1, h.2.2.2.1⟩

/- ============================================================
   C10: OOO response parking and dropping.
   ============================================================ -/

theorem pendingVals_set_subset (p : PendingTable) (i : Nat) (r : Resp) :
    ∀ x ∈ pendingVals (pendingSet p i r), x = r ∨ x ∈ pendingVals p := by
  intro x hx
  unfold pendingVals pendingSet at *
  simp only [List.map_cons, List.mem_cons] at hx
  rcases hx with h | h
  · exact Or.inl h
  · right
    simp only [List.mem_map] at h ⊢
    obtain ⟨y, hy, hxy⟩ := h
    exact ⟨y, List.mem_of_mem_filter hy, hxy⟩

theorem pendingVals_clear_subset (p : PendingTable) (i : Nat) :
    ∀ x ∈ pendingVals (pendingClear p i), x ∈ pendingVals p := by
  intro x hx
  unfold pendingVals pendingClear at *
  simp only [List.mem_map] at hx ⊢
  obtain ⟨y, hy, hxy⟩ := hx
  exact ⟨y, List.mem_of_mem_filter hy, hxy⟩

theorem pendingGet_mem (p : PendingTable) (i : Nat) (r : Resp)
    (h : pendingGet p i = some r) : r ∈ pendingVals p := by
  unfold pendingGet at h
  cases hf : p.find? (fun x => x.1 == i) with
  | none =>
    rw [hf] at h
    simp at h
  | some y =>
    rw [hf] at h
    simp only [Option.map_some'] at h
    injection h with h2
    exact List.mem_map.mpr ⟨y, List.mem_of_find?_eq_some hf, h2⟩

theorem recvDrain_pool (cap reqId : Nat) :
    ∀ (socket : List Resp) (pending : PendingTable),
      (∀ x, x ∈ pendingVals (recvDrain cap reqId pending socket).2.1 ∨
          x ∈ (recvDrain cap reqId pending socket).2.2 →
        x ∈ pendingVals pending ∨ x ∈ socket) ∧
      (∀ r, (recvDrain cap reqId pending socket).1 = some r →
        r ∈ socket) := by
  intro socket
  induction socket with
  | nil =>
    intro pending
    constructor
    · intro x hx
      unfold recvDrain at hx
      rcases hx with h | h
      · exact Or.inl h
      · simp at h
    · intro r h
      unfold recvDrain at h
      simp at h
  | cons a rest ih =>
    intro pending
    unfold recvDrain
    by_cases h1 : (a.id == reqId) = true
    · rw [if_pos h1]
      constructor
      · intro x hx
        rcases hx with h | h
        · exact Or.inl h
        · exact Or.inr (List.mem_cons_of_mem _ h)
      · intro r h
        injection h with h2
        rw [← h2]
        exact List.mem_cons_self _ _
    · rw [if_neg h1]
      by_cases h2 : a.id < cap
      · rw [if_pos h2]
        obtain ⟨hp, hr⟩ := ih (pendingSet pending a.id a)
        constructor
        · intro x hx
          rcases hp x hx with h | h
          · rcases pendingVals_set_subset _ _ _ x h with h3 | h3
            · rw [h3]
              exact Or.inr (List.mem_cons_self _ _)
            · exact Or.inl h3
          · exact Or.inr (List.mem_cons_of_mem _ h)
        · intro r h
          exact List.mem_cons_of_mem _ (hr r h)
      · rw [if_neg h2]
        obtain ⟨hp, hr⟩ := ih pending
        constructor
        · intro x hx
          rcases hp x hx with h | h
          · exact Or.inl h
          · exact Or.inr (List.mem_cons_of_mem _ h)
        · intro r h
          exact List.mem_cons_of_mem _ (hr r h)

theorem recvFor_pool (conn : ClientConn) (reqId : Nat) :
    (∀ x ∈ connPool (objm_client_recv_response_for conn reqId).2,
      x ∈ connPool conn) ∧
    (∀ r, (objm_client_recv_response_for conn reqId).1 = some r →
      r ∈ connPool conn) := by
  unfold objm_client_recv_response_for connPool
  split_ifs with h
  · constructor
    · intro x hx
      simp only [List.mem_append] at hx ⊢
      rcases hx with h2 | h2
      · exact Or.inl (pendingVals_clear_subset _ _ x h2)
      · exact Or.inr h2
    · intro r h2
      simp only [List.mem_append]
      exact Or.inl (pendingGet_mem _ _ _ h2)
  · obtain ⟨hp, hr⟩ := recvDrain_pool conn.pendingCapacity reqId
      conn.socket conn.pending
    constructor
    · intro x hx
      simp only [List.mem_append] at hx ⊢
      exact hp x hx
    · intro r h2
      simp only [List.mem_append]
      exact Or.inr (hr r h2)

theorem runCalls_subset (ids : List Nat) :
    ∀ conn, ∀ r ∈ runCalls conn ids, r ∈ connPool conn := by
  induction ids with
  | nil =>
    intro conn r hr
    simp [runCalls] at hr
  | cons reqId rest ih =>
    intro conn r hr
    unfold runCalls at hr
    cases hc : objm_client_recv_response_for conn reqId with
    | mk res conn1 =>
      rw [hc] at hr
      cases res with
      | some r0 =>
        rcases List.mem_cons.mp hr with heq | h
        · subst heq
          exact (recvFor_pool conn reqId).2 r (by rw [hc])
        · have h4 := ih conn1 r h
          have h5 : conn1 = (objm_client_recv_response_for conn reqId).2
            := by rw [hc]
          rw [h5] at h4
          exact (recvFor_pool conn reqId).1 r h4
      | none =>
        have h4 := ih conn1 r hr
        have h5 : conn1 = (objm_client_recv_response_for conn reqId).2
          := by rw [hc]
        rw [h5] at h4
        exact (recvFor_pool conn reqId).1 r h4

theorem recvDrain_not_mem (cap reqId : Nat) (r0 : Resp) :
    ∀ (socket : List Resp) (pending : PendingTable),
      r0 ∉ pendingVals pending → r0 ∉ socket →
      r0 ∉ pendingVals (recvDrain cap reqId pending socket).2.1 ∧
      r0 ∉ (recvDrain cap reqId pending socket).2.2 := by
  intro socket
  induction socket with
  | nil =>
    intro pending hp hs
    unfold recvDrain
    exact ⟨hp, by simp⟩
  | cons a rest ih =>
    intro pending hp hs
    have har : r0 ∉ rest := fun h => hs (List.mem_cons_of_mem _ h)
    have hane : a ≠ r0 := fun h => hs (h ▸ List.mem_cons_self _ _)
    unfold recvDrain
    by_cases h1 : (a.id == reqId) = true
    · rw [if_pos h1]
      exact ⟨hp, har⟩
    · rw [if_neg h1]
      by_cases h2 : a.id < cap
      · rw [if_pos h2]
        apply ih (pendingSet pending a.id a) _ har
        intro hmem
        rcases pendingVals_set_subset _ _ _ r0 hmem with h | h
        · exact hane h.symm
        · exact hp h
      · rw [if_neg h2]
        exact ih pending hp har

theorem recvDrain_dropped (cap reqId : Nat) (r0 : Resp)
    (hcap : cap ≤ r0.id) (hne : r0.id ≠ reqId) :
    ∀ (pre post : List Resp) (pending : PendingTable),
      (∀ x ∈ pre, x.id ≠ reqId) → r0 ∉ pendingVals pending →
      r0 ∉ pre → r0 ∉ post →
      r0 ∉ pendingVals
          (recvDrain cap reqId pending (pre ++ r0 :: post)).2.1 ∧
      r0 ∉ (recvDrain cap reqId pending (pre ++ r0 :: post)).2.2 := by
  intro pre
  induction pre with
  | nil =>
    intro post pending hpre hp hpre2 hpost
    rw [List.nil_append]
    unfold recvDrain
    rw [if_neg (by simpa using hne), if_neg (by omega)]
    exact recvDrain_not_mem cap reqId r0 post pending hp hpost
  | cons a pre1 ih =>
    intro post pending hpre hp hpre2 hpost
    have hane : a.id ≠ reqId := hpre a (List.mem_cons_self _ _)
    have har : a ≠ r0 := fun h => hpre2 (h ▸ List.mem_cons_self _ _)
    have hpre3 : r0 ∉ pre1 := fun h => hpre2 (List.mem_cons_of_mem _ h)
    have hpre4 : ∀ x ∈ pre1, x.id ≠ reqId :=
      fun x hx => hpre x (List.mem_cons_of_mem _ hx)
    rw [List.cons_append]
    unfold recvDrain
    rw [if_neg (by simpa using hane)]
    by_cases h2 : a.id < cap
    · rw [if_pos h2]
      apply ih post (pendingSet pending a.id a) hpre4 _ hpre3 hpost
      intro hmem
      rcases pendingVals_set_subset _ _ _ r0 hmem with h | h
      · exact har h.symm
      · exact hp h
    · rw [if_neg h2]
      exact ih post pending hpre4 hp hpre3 hpost

theorem recvDrain_slots (cap reqId : Nat) :
    ∀ (socket : List Resp) (pending : PendingTable),
      (∀ x ∈ pending, x.1 < cap) →
      ∀ x ∈ (recvDrain cap reqId pending socket).2.1, x.1 < cap := by
  intro socket
  induction socket with
  | nil =>
    intro pending hp
    unfold recvDrain
    exact hp
  | cons a rest ih =>
    intro pending hp
    unfold recvDrain
    by_cases h1 : (a.id == reqId) = true
    · rw [if_pos h1]
      exact hp
    · rw [if_neg h1]
      by_cases h2 : a.id < cap
      · rw [if_pos h2]
        apply ih (pendingSet pending a.id a)
        intro x hx
        unfold pendingSet at hx
        rcases List.mem_cons.mp hx with heq | hx2
        · rw [heq]
          exact h2
        · exact hp x (List.mem_of_mem_filter hx2)
      · rw [if_neg h2]
        exact ih pending hp

/-- C10: while objm_client_recv_response_for drains the socket waiting
    for a request id, a received response with a different request id is
    parked only into a slot below the pending-table capacity (the
    negotiated max_pipeline): the table never holds a slot at or above
    the capacity.  A drained response whose id is at or above the
    capacity and differs from the awaited id is freed: it is in neither
    the pending table nor the remaining socket afterwards, and no later
    sequence of recv_response_for calls can ever return it. -/
theorem c10_recv_response_for_parking (conn : ClientConn) (reqId : Nat)
    (r0 : Resp) (pre post : List Resp)
    (hsock : conn.socket = pre ++ r0 :: post)
    (hcap : conn.pendingCapacity ≤ r0.id)
    (hne : r0.id ≠ reqId)
    (hpre : ∀ x ∈ pre, x.id ≠ reqId)
    (hfast : ¬ (reqId < conn.pendingCapacity ∧
      (pendingGet conn.pending reqId).isSome))
    (hp : r0 ∉ pendingVals conn.pending)
    (hpre2 : r0 ∉ pre) (hpost : r0 ∉ post)
    (hslots : ∀ x ∈ conn.pending, x.1 < conn.pendingCapacity) :
    (∀ x ∈ (objm_client_recv_response_for conn reqId).2.pending,
      x.1 < conn.pendingCapacity) ∧
    r0 ∉ connPool (objm_client_recv_response_for conn reqId).2 ∧
    (∀ ids, r0 ∉ runCalls (objm_client_recv_response_for conn reqId).2
      ids) := by
  have hdrop := recvDrain_dropped conn.pendingCapacity reqId r0 hcap hne
    pre post conn.pending hpre hp hpre2 hpost
  rw [← hsock] at hdrop
  have hnotpool : r0 ∉ connPool
      (objm_client_recv_response_for conn reqId).2 := by
    unfold objm_client_recv_response_for connPool
    rw [if_neg hfast]
    intro hmem
    rcases List.mem_append.mp hmem with h | h
    · exact hdrop.1 h
    · exact hdrop.2 h
  refine ⟨?_, hnotpool, ?_⟩
  · unfold objm_client_recv_response_for
    rw [if_neg hfast]
    intro x hx
    exact recvDrain_slots conn.pendingCapacity reqId conn.socket
      conn.pending hslots x hx
  · intro ids hmem
    exact hnotpool (runCalls_subset ids _ r0 hmem)

theorem c10_witness :
    (⟨5, 0⟩ : Resp) ∉ connPool
      (objm_client_recv_response_for ⟨2, [], [⟨5, 0⟩, ⟨1, 7⟩]⟩ 1).2 ∧
    (⟨5, 0⟩ : Resp) ∉ runCalls
      (objm_client_recv_response_for ⟨2, [], [⟨5, 0⟩, ⟨1, 7⟩]⟩ 1).2
      [5] := by
  have h := c10_recv_response_for_parking ⟨2, [], [⟨5, 0⟩, ⟨1, 7⟩]⟩ 1
    ⟨5, 0⟩ [] [⟨1, 7⟩] rfl (by decide) (by decide) (by decide)
    (by decide) (by decide) (by decide) (by decide) (by decide)
  exact ⟨h.2.1, h.2.2 [5]⟩

end Objmapper
